import Mathlib

/-!
Shallow embedding of the order-system-service core
(`src/services/OrderService.ts`: `OrderService.createOrder`,
`OrderService.cancelOrder`; `ProductService.getProductById`).

Modelling conventions:
* ids and lock tokens are `Nat`; `uuidv4()` is modelled as drawing the next
  value from a counter threaded through the service state (each call
  consumes one value, in source order);
* `price` (a `decimal(10,2)` column) and the `int` columns `stock`,
  `reservedStock`, `quantity` are modelled as `Int` (JavaScript arithmetic
  on them is exact in the ranges involved);
* the relational store is lists of rows; `repository.findOne({where:{id}})`
  is first-match lookup, `manager.save(row)` replaces the row with the same
  primary key; a transaction is a local copy of the touched tables, `commit`
  installs it and `rollback` discards it, while Redis operations issued
  inside the transaction (lock set/del, cache del) take effect immediately
  and are never rolled back;
* Redis `SET key tok NX EX ttl` is conditional insert of a `(key, token,
  ttl)` entry, `DEL` removes by key, `setEx` overwrites with a fresh ttl;
  wall-clock ttl expiry is not modelled (no real time);
* `JSON.stringify`/`JSON.parse` round-trip is modelled as storing the
  product record itself as the cached snapshot; the opaque `payload` string
  of `EventLog` rows is not modelled;
* the RabbitMQ publish is a `publishOk` flag: when true the event is
  appended to a `broker` log, when false the publish throws and the service
  catches and swallows the error (lines 144-147).
-/

namespace OrderSystem

/-- Row of the `products` table (`src/entities/Product.ts`). -/
structure Product where
  id : Nat
  name : String
  price : Int
  stock : Int
  reservedStock : Int
  isActive : Bool
deriving Repr, DecidableEq

/-- `OrderStatus` enum (`src/entities/Order.ts`). -/
inductive OrderStatus where
  | PENDING
  | CONFIRMED
  | FAILED
  | CANCELLED
  | COMPLETED
deriving Repr, DecidableEq

/-- Row of the `orders` table (`src/entities/Order.ts`); `referenceNo` is
modelled as the fresh value drawn where the source builds
`ORD-${Date.now()}-${uuid prefix}`. -/
structure Order where
  id : Nat
  userId : Nat
  status : OrderStatus
  totalPrice : Int
  referenceNo : Nat
deriving Repr, DecidableEq

/-- Row of the `order_items` table (`src/entities/OrderItem.ts`). -/
structure OrderItem where
  id : Nat
  orderId : Nat
  productId : Nat
  quantity : Int
  unitPrice : Int
  totalPrice : Int
deriving Repr, DecidableEq

/-- `EventType` enum (`src/entities/EventLog.ts`). -/
inductive EventType where
  | ORDER_CREATED
  | STOCK_RESERVED
  | PAYMENT_PROCESSED
  | ORDER_CONFIRMED
  | ORDER_FAILED
  | ORDER_CANCELLED
deriving Repr, DecidableEq

/-- Row of the `event_logs` table (`src/entities/EventLog.ts`), minus the
opaque serialized `payload`. -/
structure EventLog where
  id : Nat
  orderId : Nat
  eventType : EventType
deriving Repr, DecidableEq

/-- The relational store: the tables touched by the order workflow. -/
structure Db where
  users : List Nat
  products : List Product
  orders : List Order
  orderItems : List OrderItem
  eventLogs : List EventLog
deriving Repr, DecidableEq

/-- A Redis stock lock entry: `SET stock_lock:{productId} token NX EX 30`. -/
structure LockEntry where
  key : Nat
  token : Nat
  ttl : Nat
deriving Repr, DecidableEq

/-- A Redis cached product snapshot: `setEx product:{productId} ttl body`. -/
structure CacheEntry where
  key : Nat
  snapshot : Product
  ttl : Nat
deriving Repr, DecidableEq

/-- Message published to the `order_events` exchange after commit
(`createOrder` step 7); the wall-clock timestamp field is not modelled. -/
structure PublishedEvent where
  orderId : Nat
  userId : Nat
  referenceNo : Nat
  totalPrice : Int
deriving Repr, DecidableEq

/-- One requested line item of a `createOrder` call. -/
structure CreateItem where
  productId : Nat
  quantity : Int
deriving Repr, DecidableEq

/-- The error taxonomy `createOrder` surfaces (the distinct `throw new
Error(...)` sites, plus the crash of the `product!` assertion on line 111
as `internal`). -/
inductive OrderError where
  | userNotFound
  | productNotFound (productId : Nat)
  | insufficientStock (name : String) (available requested : Int)
  | lockConflict (productId : Nat)
  | internal
deriving Repr, DecidableEq

/-- The error `cancelOrder` surfaces (`Order already cancelled`). -/
inductive CancelError where
  | alreadyCancelled
deriving Repr, DecidableEq

/-- Redis `GET stock_lock:{k}`. -/
def lockLookup (ls : List LockEntry) (k : Nat) : Option LockEntry :=
  ls.find? (fun e => e.key == k)

/-- Redis `DEL stock_lock:{k}`: removes the entry by key alone, whatever
token it stores. -/
def lockDel (ls : List LockEntry) (k : Nat) : List LockEntry :=
  ls.filter (fun e => e.key != k)

/-- Redis `SET stock_lock:{k} tok NX EX 30` (OrderService line 44-48):
atomic set-if-absent with a 30 second expiry; `none` means refused. -/
def lockAcquire (ls : List LockEntry) (k tok : Nat) : Option (List LockEntry) :=
  match lockLookup ls k with
  | some _ => none
  | none => some (⟨k, tok, 30⟩ :: ls)

/-- Redis `GET product:{k}` followed by `JSON.parse`. -/
def cacheGet (c : List CacheEntry) (k : Nat) : Option Product :=
  (c.find? (fun e => e.key == k)).map (·.snapshot)

/-- Redis `DEL product:{k}`. -/
def cacheDel (c : List CacheEntry) (k : Nat) : List CacheEntry :=
  c.filter (fun e => e.key != k)

/-- Redis `setEx product:{k} ttl (JSON.stringify p)`. -/
def cacheSetEx (c : List CacheEntry) (k ttl : Nat) (p : Product) : List CacheEntry :=
  ⟨k, p, ttl⟩ :: cacheDel c k

/-- `productRepository.findOne({ where: { id } })`. -/
def findProduct (ps : List Product) (pid : Nat) : Option Product :=
  ps.find? (fun p => p.id == pid)

/-- `manager.save(product)`: replace the row with `p'.id` by `p'`. -/
def saveProduct (ps : List Product) (p' : Product) : List Product :=
  ps.map (fun q => if q.id == p'.id then p' else q)

/-- `orderRepository.findOne({ where: { id } })`. -/
def findOrder (os : List Order) (oid : Nat) : Option Order :=
  os.find? (fun o => o.id == oid)

/-- `manager.save(order)`: replace the row with `o'.id` by `o'`. -/
def saveOrder (os : List Order) (o' : Order) : List Order :=
  os.map (fun q => if q.id == o'.id then o' else q)

/-- The `items` relation of an order: its rows of `order_items`. -/
def orderItemsOf (db : Db) (oid : Nat) : List OrderItem :=
  db.orderItems.filter (fun it => it.orderId == oid)

/-- The whole observable state the service acts on: the relational store,
the Redis cache and lock keys, the uuid supply, and the broker log. -/
structure ServiceState where
  db : Db
  cache : List CacheEntry
  locks : List LockEntry
  counter : Nat
  broker : List PublishedEvent
deriving Repr, DecidableEq

/-- State threaded through the per-item reservation loop of `createOrder`
(lines 40-85): the transaction-local view of `products`, the live Redis
cache and lock keys, the uuid counter, and the running `totalPrice`. -/
structure ResState where
  products : List Product
  cache : List CacheEntry
  locks : List LockEntry
  counter : Nat
  total : Int
deriving Repr, DecidableEq

/-- The per-item reservation loop of `createOrder` (lines 40-85): for each
item, draw a fresh token and try `SET ... NX EX 30`; a refusal throws
lock-conflict; otherwise find the product in the transaction, throw
not-found if absent, throw insufficient-stock if `stock < quantity`, else
move `quantity` from `stock` to `reservedStock`, save, accumulate
`price * quantity` into the total, delete the cached snapshot, and in all
three post-acquire outcomes release the lock by unconditional `DEL`.
Returns the loop state as left behind (Redis effects are immediate) and
the first error thrown, if any. -/
def reserveItems : List CreateItem → ResState → ResState × Option OrderError
  | [], st => (st, none)
  | it :: rest, st =>
    let tok := st.counter
    let c1 := st.counter + 1
    match lockAcquire st.locks it.productId tok with
    | none => ({ st with counter := c1 }, some (.lockConflict it.productId))
    | some locks1 =>
      match findProduct st.products it.productId with
      | none =>
        ({ st with counter := c1, locks := lockDel locks1 it.productId },
         some (.productNotFound it.productId))
      | some p =>
        if p.stock < it.quantity then
          ({ st with counter := c1, locks := lockDel locks1 it.productId },
           some (.insufficientStock p.name p.stock it.quantity))
        else
          reserveItems rest
            { products := saveProduct st.products
                { p with stock := p.stock - it.quantity,
                         reservedStock := p.reservedStock + it.quantity },
              cache := cacheDel st.cache it.productId,
              locks := lockDel locks1 it.productId,
              counter := c1,
              total := st.total + p.price * it.quantity }

/-- The order-item creation loop of `createOrder` (lines 100-116): re-read
each item's product from the transaction view and build the `OrderItem`
row snapshotting `unitPrice`; `none` models the crash of the `product!`
null assertion when the product is absent. Each row consumes one uuid. -/
def buildItems : List CreateItem → List Product → Nat → Nat →
    Option (List OrderItem × Nat)
  | [], _, _, c => some ([], c)
  | it :: rest, ps, oid, c =>
    match findProduct ps it.productId with
    | none => none
    | some p =>
      match buildItems rest ps oid (c + 1) with
      | none => none
      | some (tail, c2) =>
        some (⟨c, oid, it.productId, it.quantity, p.price, p.price * it.quantity⟩
                :: tail, c2)

/-- `OrderService.createOrder` (lines 21-157). Check the user, run the
reservation loop, then inside the same transaction create the `Order` row
(status PENDING, accumulated `totalPrice`, fresh `referenceNo`), the
`OrderItem` rows, and the `ORDER_CREATED` event row, and commit; finally
publish `order.created` best-effort (`publishOk` false means the publish
throws; the error is caught and swallowed). On any thrown error the
transaction is rolled back: the relational store is unchanged, while Redis
effects and consumed uuids persist. -/
def createOrder (s : ServiceState) (userId : Nat) (items : List CreateItem)
    (publishOk : Bool) : Except OrderError Order × ServiceState :=
  if s.db.users.contains userId then
    let res := reserveItems items
      ⟨s.db.products, s.cache, s.locks, s.counter, 0⟩
    match res.2 with
    | some e =>
      (.error e,
       { s with cache := res.1.cache, locks := res.1.locks,
                counter := res.1.counter })
    | none =>
      let st := res.1
      let refNo := st.counter
      let orderId := st.counter + 1
      let order : Order := ⟨orderId, userId, .PENDING, st.total, refNo⟩
      match buildItems items st.products orderId (st.counter + 2) with
      | none =>
        (.error .internal,
         { s with cache := st.cache, locks := st.locks,
                  counter := st.counter + 2 })
      | some (oitems, c3) =>
        let log : EventLog := ⟨c3, orderId, .ORDER_CREATED⟩
        (.ok order,
         { db := { users := s.db.users, products := st.products,
                   orders := s.db.orders ++ [order],
                   orderItems := s.db.orderItems ++ oitems,
                   eventLogs := s.db.eventLogs ++ [log] },
           cache := st.cache, locks := st.locks, counter := c3 + 1,
           broker := if publishOk
             then s.broker ++ [⟨orderId, userId, refNo, st.total⟩]
             else s.broker })
  else (.error .userNotFound, s)

/-- The stock-restoration loop of `cancelOrder` (lines 269-283): for each
item of the order, look the product up in the transaction view; when it
exists move `quantity` back from `reservedStock` to `stock`, save, and
delete the cached snapshot; when it does not, skip the item silently. -/
def restoreItems : List OrderItem → List Product → List CacheEntry →
    List Product × List CacheEntry
  | [], ps, c => (ps, c)
  | it :: rest, ps, c =>
    match findProduct ps it.productId with
    | none => restoreItems rest ps c
    | some p =>
      restoreItems rest
        (saveProduct ps
          { p with stock := p.stock + it.quantity,
                   reservedStock := p.reservedStock - it.quantity })
        (cacheDel c it.productId)

/-- `OrderService.cancelOrder` (lines 249-310): load the order with its
items inside a transaction; absent orders return `null`; a CANCELLED order
throws already-cancelled (rolled back, nothing changed); otherwise restore
stock per item, set the status to CANCELLED, append the `ORDER_CANCELLED`
event row, and commit. -/
def cancelOrder (s : ServiceState) (orderId : Nat) :
    Except CancelError (Option Order) × ServiceState :=
  match findOrder s.db.orders orderId with
  | none => (.ok none, s)
  | some o =>
    if o.status = OrderStatus.CANCELLED then
      (.error .alreadyCancelled, s)
    else
      let res := restoreItems (orderItemsOf s.db orderId) s.db.products s.cache
      let o' : Order := { o with status := OrderStatus.CANCELLED }
      let log : EventLog := ⟨s.counter, orderId, .ORDER_CANCELLED⟩
      (.ok (some o'),
       { db := { users := s.db.users, products := res.1,
                 orders := saveOrder s.db.orders o',
                 orderItems := s.db.orderItems,
                 eventLogs := s.db.eventLogs ++ [log] },
         cache := res.2, locks := s.locks, counter := s.counter + 1,
         broker := s.broker })

/-- `ProductService.getProductById` (lines 342-374), instrumented with the
observable effect counts of the claim: the result, the cache afterwards,
the number of relational-store reads, and the number of cache writes. A
hit returns the deserialized snapshot with no store read and no cache
write (the ttl is untouched); a miss reads the store once and, only when
the product exists, writes the snapshot back with ttl 3600. -/
def getProductById (cache : List CacheEntry) (ps : List Product) (pid : Nat) :
    Option Product × List CacheEntry × Nat × Nat :=
  match cacheGet cache pid with
  | some p => (some p, cache, 0, 0)
  | none =>
    match findProduct ps pid with
    | none => (none, cache, 1, 0)
    | some p => (some p, cacheSetEx cache pid 3600 p, 1, 1)

/-!
Interleaving model of two concurrent `createOrder` requests against one
product, used to settle the no-oversell property. Each request runs the
single-item reservation path of `createOrder` (lines 44-129) split at its
suspension points; the database is modelled with read-committed isolation
and row-level write locks, the semantics the service runs against (spec
sections 5 and 9): a read inside an open transaction sees the last
committed row, a `save` takes the row lock until commit, and commit
installs the transaction's buffered values.

Request phases:
* 0 - before `redisClient.set(lockKey, ..., NX)` (line 44);
* 1 - Redis lock held, product row read from the committed store
  (line 56); next the stock check (line 64) and `save` (line 73);
* 2 - row saved: the new values are buffered in the transaction and the
  row lock is held; next the `finally` lock release (line 83);
* 3 - Redis lock released, transaction still open; next commit (line 129);
* 4 - committed: the request returned its order successfully;
* 5 - failed (lock refused, or insufficient stock: rolled back).

A scheduled step for a request whose next action is blocked (the row lock
is held by the other transaction) leaves the state unchanged.
-/

/-- Local state of one in-flight single-item request. -/
structure CReq where
  phase : Nat
  seenStock : Int
  seenReserved : Int
  bufStock : Int
  bufReserved : Int
deriving Repr, DecidableEq

/-- The shared system: committed product row, the Redis lock bit for this
product, the database row lock (`some who` while a transaction has an
uncommitted save), and the two requests. -/
structure CSys where
  stock : Int
  reserved : Int
  lockFree : Bool
  rowLock : Option Bool
  reqA : CReq
  reqB : CReq
deriving Repr, DecidableEq

/-- The request named by `who` (`false` is A, `true` is B). -/
def getReq (sys : CSys) (who : Bool) : CReq :=
  if who then sys.reqB else sys.reqA

/-- Replace the request named by `who`. -/
def setReq (sys : CSys) (who : Bool) (r : CReq) : CSys :=
  if who then { sys with reqB := r } else { sys with reqA := r }

/-- One scheduled step of request `who`, each requesting quantity `q`:
acquire-and-read, check-and-save, release the Redis lock, commit. -/
def cstep (q : Int) (who : Bool) (sys : CSys) : CSys :=
  let r := getReq sys who
  if r.phase = 0 then
    if sys.lockFree then
      setReq { sys with lockFree := false } who
        { r with phase := 1, seenStock := sys.stock, seenReserved := sys.reserved }
    else
      setReq sys who { r with phase := 5 }
  else if r.phase = 1 then
    if r.seenStock < q then
      setReq { sys with lockFree := true } who { r with phase := 5 }
    else
      match sys.rowLock with
      | some _ => sys
      | none =>
        setReq { sys with rowLock := some who } who
          { r with phase := 2, bufStock := r.seenStock - q,
                   bufReserved := r.seenReserved + q }
  else if r.phase = 2 then
    setReq { sys with lockFree := true } who { r with phase := 3 }
  else if r.phase = 3 then
    setReq { sys with stock := r.bufStock, reserved := r.bufReserved,
                      rowLock := none } who { r with phase := 4 }
  else sys

/-- Run a schedule (the interleaving order of the two requests). -/
def crun (q : Int) (sched : List Bool) (sys : CSys) : CSys :=
  sched.foldl (fun s w => cstep q w s) sys

/-- Scenario 1 start: stock 10, reservedStock 0, both requests idle. -/
def cinit : CSys := ⟨10, 0, true, none, ⟨0, 0, 0, 0, 0⟩, ⟨0, 0, 0, 0, 0⟩⟩

/-- The racy interleaving the early lock release admits: A acquires,
reads, saves and releases the Redis lock; B then acquires the freed lock
and reads the still-committed row before A commits; A commits; B
validates against its stale read, saves, releases, commits. -/
def oversellSchedule : List Bool :=
  [false, false, false, true, false, true, true, true]

/-- Sum of the quantities reserved by the requests that succeeded. -/
def reservedBySuccesses (q : Int) (sys : CSys) : Int :=
  (if sys.reqA.phase = 4 then q else 0) + (if sys.reqB.phase = 4 then q else 0)

/-- The reservation update of one item (lines 71-72): move `d` units from
`stock` to `reservedStock`. -/
def shiftReserve (d : Int) (p : Product) : Product :=
  { p with stock := p.stock - d, reservedStock := p.reservedStock + d }

/-- The cancellation update of one item (lines 275-276): move `d` units
back from `reservedStock` to `stock`. -/
def shiftRestore (d : Int) (p : Product) : Product :=
  { p with stock := p.stock + d, reservedStock := p.reservedStock - d }

/-- Total quantity the request's items order for one product id. -/
def totalQty (items : List CreateItem) (pid : Nat) : Int :=
  ((items.filter (fun it => it.productId == pid)).map (·.quantity)).sum

/-- Total quantity the order's item rows hold for one product id. -/
def totalQtyO (its : List OrderItem) (pid : Nat) : Int :=
  ((its.filter (fun it => it.productId == pid)).map (·.quantity)).sum

/-- Sum of the line totals of the requested items priced against a product
table (price 0 for an absent product; the success path never reads it). -/
def lineSum (ps : List Product) : List CreateItem → Int
  | [] => 0
  | it :: rest =>
    (match findProduct ps it.productId with
     | some p => p.price
     | none => 0) * it.quantity + lineSum ps rest

/-- Observed `stock + reservedStock` of the product with a given id. -/
def sumAt (ps : List Product) (pid : Nat) : Option Int :=
  (findProduct ps pid).map (fun p => p.stock + p.reservedStock)

/-- The call surfaced a NotFound-kind error (user or product absent). -/
def isNotFoundRes (r : Except OrderError Order) : Prop :=
  r = .error .userNotFound ∨ ∃ pid, r = .error (.productNotFound pid)

/-- The call surfaced an InsufficientStock error. -/
def isInsufficientRes (r : Except OrderError Order) : Prop :=
  ∃ n a q, r = .error (.insufficientStock n a q)

/-- The call surfaced a LockConflict error. -/
def isLockConflictRes (r : Except OrderError Order) : Prop :=
  ∃ pid, r = .error (.lockConflict pid)

/-- Claim C5 formalized at one input: each error kind is surfaced exactly
when its condition holds against the call-time state — NotFound exactly
when the user is absent or some requested product is absent,
InsufficientStock exactly when some item's quantity exceeds its product's
current stock, LockConflict exactly when a requested product's lock key is
occupied at call time. -/
def claimC5At (s : ServiceState) (userId : Nat) (items : List CreateItem)
    (publishOk : Bool) : Prop :=
  (isNotFoundRes (createOrder s userId items publishOk).1 ↔
    (s.db.users.contains userId = false ∨
      ∃ it ∈ items, findProduct s.db.products it.productId = none)) ∧
  (isInsufficientRes (createOrder s userId items publishOk).1 ↔
    ∃ it ∈ items, ∃ p, findProduct s.db.products it.productId = some p ∧
      p.stock < it.quantity) ∧
  (isLockConflictRes (createOrder s userId items publishOk).1 ↔
    ∃ it ∈ items, lockLookup s.locks it.productId ≠ none)

/-- A product used by the concrete scenario states. -/
def demoProduct : Product := ⟨1, "widget", 5, 10, 0, true⟩

/-- Scenario base state: one user (7), one product (id 1, stock 10,
reservedStock 0), empty cache, no locks, empty broker log. -/
def demoState : ServiceState :=
  ⟨⟨[7], [demoProduct], [], [], []⟩, [], [], 0, []⟩

/-- State after Scenario 2's order creation (quantity 3 against stock 10). -/
def demoAfterCreate : ServiceState :=
  (createOrder demoState 7 [⟨1, 3⟩] true).2

/-- Input refuting claim C5 as stated: the user is absent and at the same
time the single item's quantity (5) exceeds its product's stock (0). -/
def c5State : ServiceState :=
  ⟨⟨[], [⟨1, "widget", 5, 0, 0, true⟩], [], [], []⟩, [], [], 0, []⟩

/-- State for the missing-product cancellation scenario: an order (id 2)
with one item row referencing product 1, but an empty product table. -/
def c10State : ServiceState :=
  ⟨⟨[7], [], [⟨2, 7, .PENDING, 15, 1⟩], [⟨3, 2, 1, 3, 5, 15⟩],
    [⟨4, 2, .ORDER_CREATED⟩]⟩, [], [], 5, []⟩

/-- The demo state with the lock key of product 1 already held by some
other holder (token 99). -/
def lockedState : ServiceState :=
  { demoState with locks := [⟨1, 99, 30⟩] }

/-- Finding by key commutes with a key-preserving row rewrite. -/
theorem find_map_key {α : Type} (key : α → Nat) (f : α → α)
    (hf : ∀ q, key (f q) = key q) (l : List α) (k : Nat) :
    (l.map f).find? (fun q => key q == k) =
      (l.find? (fun q => key q == k)).map f := by
  induction l with
  | nil => rfl
  | cons a t ih =>
    by_cases h : key a = k
    · rw [List.map_cons,
        List.find?_cons_of_pos (p := fun q => key q == k) _ (by simp [hf, h]),
        List.find?_cons_of_pos (p := fun q => key q == k) _ (by simp [h])]
      rfl
    · rw [List.map_cons,
        List.find?_cons_of_neg (p := fun q => key q == k) _ (by simp [hf, h]),
        List.find?_cons_of_neg (p := fun q => key q == k) _ (by simp [h])]
      exact ih

/-- Saving a row rewrites the table pointwise under lookup. -/
theorem findProduct_saveProduct (ps : List Product) (p' : Product) (pid : Nat) :
    findProduct (saveProduct ps p') pid =
      (findProduct ps pid).map (fun q => if q.id == p'.id then p' else q) :=
  find_map_key Product.id _
    (fun q => by by_cases h : q.id = p'.id <;> simp [h]) ps pid

/-- A product found by id has that id. -/
theorem findProduct_some_id {ps : List Product} {pid : Nat} {p : Product}
    (hp : findProduct ps pid = some p) : p.id = pid := by
  have h := List.find?_some (p := fun (q : Product) => q.id == pid)
    (l := ps) (a := p) hp
  simpa using h

/-- An order found by id has that id. -/
theorem findOrder_some_id {os : List Order} {oid : Nat} {o : Order}
    (ho : findOrder os oid = some o) : o.id = oid := by
  have h := List.find?_some (p := fun (q : Order) => q.id == oid)
    (l := os) (a := o) ho
  simpa using h

/-- Looking the saved row's own id up finds the new row (when present). -/
theorem findProduct_saveProduct_of_found (ps : List Product) (p p' : Product)
    (hp : findProduct ps p'.id = some p) :
    findProduct (saveProduct ps p') p'.id = some p' := by
  have hq : p.id = p'.id := findProduct_some_id hp
  rw [findProduct_saveProduct, hp, Option.map_some']
  simp [hq]

/-- Looking any other id up is unaffected by the save. -/
theorem findProduct_saveProduct_of_ne (ps : List Product) (p' : Product)
    (pid : Nat) (h : pid ≠ p'.id) :
    findProduct (saveProduct ps p') pid = findProduct ps pid := by
  rw [findProduct_saveProduct]
  cases hf : findProduct ps pid with
  | none => rfl
  | some q =>
    have hq : q.id = pid := findProduct_some_id hf
    rw [Option.map_some']
    simp [hq, h]

/-- Saving an order rewrites the order table pointwise under lookup. -/
theorem findOrder_saveOrder (os : List Order) (o' : Order) (oid : Nat) :
    findOrder (saveOrder os o') oid =
      (findOrder os oid).map (fun q => if q.id == o'.id then o' else q) :=
  find_map_key Order.id _
    (fun q => by by_cases h : q.id = o'.id <;> simp [h]) os oid

/-- Looking the saved order's own id up finds the new row (when present). -/
theorem findOrder_saveOrder_of_found (os : List Order) (o o' : Order)
    (ho : findOrder os o'.id = some o) :
    findOrder (saveOrder os o') o'.id = some o' := by
  have hq : o.id = o'.id := findOrder_some_id ho
  rw [findOrder_saveOrder, ho, Option.map_some']
  simp [hq]

/-- Redis `DEL` of a lock key: the deleted key reads empty, others are
untouched — for every stored token. -/
theorem lockLookup_lockDel (ls : List LockEntry) (k k2 : Nat) :
    lockLookup (lockDel ls k) k2 =
      if k2 = k then none else lockLookup ls k2 := by
  induction ls with
  | nil => simp [lockLookup, lockDel]
  | cons e t ih =>
    have hd : lockDel (e :: t) k =
        if e.key = k then lockDel t k else e :: lockDel t k := by
      simp only [lockDel, List.filter_cons]
      by_cases h1 : e.key = k <;> simp [h1]
    by_cases h1 : e.key = k
    · rw [hd, if_pos h1, ih]
      by_cases h2 : k2 = k
      · simp [h2]
      · have he : lockLookup (e :: t) k2 = lockLookup t k2 := by
          unfold lockLookup
          exact List.find?_cons_of_neg _ (by simp [h1]; omega)
        simp [h2, he]
    · rw [hd, if_neg h1]
      by_cases h2 : e.key = k2
      · have hk : k2 ≠ k := fun hc => h1 (h2.trans hc)
        have hl : lockLookup (e :: lockDel t k) k2 = some e := by
          unfold lockLookup
          exact List.find?_cons_of_pos _ (by simp [h2])
        have hr : lockLookup (e :: t) k2 = some e := by
          unfold lockLookup
          exact List.find?_cons_of_pos _ (by simp [h2])
        simp [hl, hk, hr]
      · have hl : lockLookup (e :: lockDel t k) k2 = lockLookup (lockDel t k) k2 := by
          unfold lockLookup
          exact List.find?_cons_of_neg _ (by simp [h2])
        have hr : lockLookup (e :: t) k2 = lockLookup t k2 := by
          unfold lockLookup
          exact List.find?_cons_of_neg _ (by simp [h2])
        rw [hl, ih, hr]

/-- Reserving zero units changes nothing. -/
theorem shiftReserve_zero (p : Product) : shiftReserve 0 p = p := by
  simp [shiftReserve]

/-- Two reservations compose additively. -/
theorem shiftReserve_shiftReserve (d e : Int) (p : Product) :
    shiftReserve d (shiftReserve e p) = shiftReserve (e + d) p := by
  simp only [shiftReserve]
  congr 1 <;> ring

/-- Restoring zero units changes nothing. -/
theorem shiftRestore_zero (p : Product) : shiftRestore 0 p = p := by
  simp [shiftRestore]

/-- Two restorations compose additively. -/
theorem shiftRestore_shiftRestore (d e : Int) (p : Product) :
    shiftRestore d (shiftRestore e p) = shiftRestore (e + d) p := by
  simp only [shiftRestore]
  congr 1 <;> ring

/-- Splitting the requested total of a product over the head item. -/
theorem totalQty_cons (it : CreateItem) (rest : List CreateItem) (pid : Nat) :
    totalQty (it :: rest) pid =
      (if it.productId = pid then it.quantity else 0) + totalQty rest pid := by
  by_cases h : it.productId = pid <;>
    simp [totalQty, List.filter_cons, h]

/-- Splitting the ordered total of a product over the head item row. -/
theorem totalQtyO_cons (it : OrderItem) (rest : List OrderItem) (pid : Nat) :
    totalQtyO (it :: rest) pid =
      (if it.productId = pid then it.quantity else 0) + totalQtyO rest pid := by
  by_cases h : it.productId = pid <;>
    simp [totalQtyO, List.filter_cons, h]

/-- A successful reservation loop rewrites the product table pointwise:
the product keeps its identity, name, price and activity, and moves
exactly the total requested quantity from `stock` to `reservedStock`;
untouched products are unchanged. -/
theorem reserveItems_find (items : List CreateItem) :
    ∀ st st' : ResState, reserveItems items st = (st', none) → ∀ pid : Nat,
      findProduct st'.products pid =
        (findProduct st.products pid).map (shiftReserve (totalQty items pid)) := by
  induction items with
  | nil =>
    intro st st' h pid
    obtain ⟨rfl, -⟩ : st = st' ∧ (none : Option OrderError) = none := by
      simpa [reserveItems, Prod.ext_iff] using h
    cases hf : findProduct st.products pid <;>
      simp [totalQty, shiftReserve_zero]
  | cons it rest ih =>
    intro st st' h pid
    unfold reserveItems at h
    cases hacq : lockAcquire st.locks it.productId st.counter with
    | none => simp [hacq] at h
    | some locks1 =>
      simp only [hacq] at h
      cases hp : findProduct st.products it.productId with
      | none => simp [hp] at h
      | some p =>
        simp only [hp] at h
        by_cases hstock : p.stock < it.quantity
        · simp [if_pos hstock] at h
        · rw [if_neg hstock] at h
          have hpid : p.id = it.productId := findProduct_some_id hp
          have hrec : findProduct st'.products pid =
              Option.map (shiftReserve (totalQty rest pid))
                (findProduct (saveProduct st.products (shiftReserve it.quantity p))
                  pid) := ih _ _ h pid
          by_cases hc : pid = it.productId
          · subst hc
            have hp' : findProduct st.products
                (shiftReserve it.quantity p).id = some p := by
              simpa [shiftReserve, hpid] using hp
            have hfind : findProduct
                (saveProduct st.products (shiftReserve it.quantity p))
                it.productId = some (shiftReserve it.quantity p) := by
              have h2 := findProduct_saveProduct_of_found st.products p
                (shiftReserve it.quantity p) hp'
              simpa [shiftReserve, hpid] using h2
            rw [hfind] at hrec
            rw [hrec, hp, totalQty_cons, if_pos rfl, Option.map_some',
              Option.map_some', shiftReserve_shiftReserve]
          · have hne : findProduct
                (saveProduct st.products (shiftReserve it.quantity p)) pid =
                findProduct st.products pid :=
              findProduct_saveProduct_of_ne _ _ _
                (by simpa [shiftReserve, hpid] using hc)
            rw [hne] at hrec
            rw [hrec, totalQty_cons, if_neg (fun hc2 => hc hc2.symm)]
            simp

/-- The cancellation restore loop rewrites the product table pointwise:
a product that exists gets the order's total quantity for it moved back
from `reservedStock` to `stock`; an absent product stays absent (the loop
skips it), and untouched products are unchanged. -/
theorem restoreItems_find (its : List OrderItem) :
    ∀ (ps : List Product) (c : List CacheEntry) (pid : Nat),
      findProduct (restoreItems its ps c).1 pid =
        (findProduct ps pid).map (shiftRestore (totalQtyO its pid)) := by
  induction its with
  | nil =>
    intro ps c pid
    cases hf : findProduct ps pid <;>
      simp [restoreItems, totalQtyO, shiftRestore_zero, hf]
  | cons it rest ih =>
    intro ps c pid
    unfold restoreItems
    cases hp : findProduct ps it.productId with
    | none =>
      simp only
      rw [ih]
      by_cases hc : pid = it.productId
      · subst hc
        rw [hp]
        simp
      · rw [totalQtyO_cons, if_neg (fun h2 => hc h2.symm)]
        simp
    | some p =>
      simp only
      have hpid : p.id = it.productId := findProduct_some_id hp
      show findProduct (restoreItems rest
          (saveProduct ps (shiftRestore it.quantity p))
          (cacheDel c it.productId)).1 pid =
        Option.map (shiftRestore (totalQtyO (it :: rest) pid))
          (findProduct ps pid)
      rw [ih]
      by_cases hc : pid = it.productId
      · subst hc
        have hp' : findProduct ps (shiftRestore it.quantity p).id = some p := by
          simpa [shiftRestore, hpid] using hp
        have hfind : findProduct
            (saveProduct ps (shiftRestore it.quantity p)) it.productId =
            some (shiftRestore it.quantity p) := by
          have h2 := findProduct_saveProduct_of_found ps p
            (shiftRestore it.quantity p) hp'
          simpa [shiftRestore, hpid] using h2
        rw [hfind, hp, totalQtyO_cons, if_pos rfl, Option.map_some',
          Option.map_some', shiftRestore_shiftRestore]
      · have hne : findProduct
            (saveProduct ps (shiftRestore it.quantity p)) pid =
            findProduct ps pid :=
          findProduct_saveProduct_of_ne _ _ _
            (by simpa [shiftRestore, hpid] using hc)
        rw [hne, totalQtyO_cons, if_neg (fun h2 => hc h2.symm)]
        simp

/-- A save whose new row agrees with the replaced row on a projection
leaves that projection of every lookup unchanged. -/
theorem findProduct_saveProduct_map {α : Type} (g : Product → α)
    (ps : List Product) (p' p0 : Product)
    (hp : findProduct ps p'.id = some p0) (hg : g p' = g p0) (pid : Nat) :
    (findProduct (saveProduct ps p') pid).map g =
      (findProduct ps pid).map g := by
  by_cases hc : pid = p'.id
  · subst hc
    rw [findProduct_saveProduct_of_found _ _ _ hp, hp]
    simp [hg]
  · rw [findProduct_saveProduct_of_ne _ _ _ hc]

/-- Two product tables with the same prices under lookup give every item
list the same line-total sum. -/
theorem lineSum_congr (ps1 ps2 : List Product)
    (h : ∀ pid, (findProduct ps1 pid).map Product.price =
      (findProduct ps2 pid).map Product.price) :
    ∀ items, lineSum ps1 items = lineSum ps2 items := by
  intro items
  induction items with
  | nil => rfl
  | cons it rest ih =>
    unfold lineSum
    rw [ih]
    have h2 := h it.productId
    cases h1 : findProduct ps1 it.productId <;>
      cases hq : findProduct ps2 it.productId <;>
        rw [h1, hq] at h2 <;> simp at h2 <;> simp [h2]

/-- A refused `SET NX` means the lock key was occupied. -/
theorem lockAcquire_none {ls : List LockEntry} {k tok : Nat}
    (h : lockAcquire ls k tok = none) : lockLookup ls k ≠ none := by
  unfold lockAcquire at h
  cases hl : lockLookup ls k with
  | none => rw [hl] at h; exact absurd h (by simp)
  | some e => simp [hl]

/-- A granted `SET NX` means the key was free, and it stores the caller's
token with a 30 second expiry. -/
theorem lockAcquire_some {ls ls' : List LockEntry} {k tok : Nat}
    (h : lockAcquire ls k tok = some ls') :
    lockLookup ls k = none ∧ ls' = ⟨k, tok, 30⟩ :: ls := by
  unfold lockAcquire at h
  cases hl : lockLookup ls k with
  | none => rw [hl] at h; exact ⟨rfl, (Option.some_injective _ h).symm⟩
  | some e => rw [hl] at h; exact absurd h (by simp)

/-- Deleting the just-inserted lock key also clears any older entry under
the same key. -/
theorem lockDel_cons_self (ls : List LockEntry) (k tok ttl : Nat) :
    lockDel (⟨k, tok, ttl⟩ :: ls) k = lockDel ls k := by
  simp [lockDel, List.filter_cons]

/-- Classification of reservation-loop failures: a lock conflict names a
requested product whose lock key was occupied at loop entry; a
product-not-found names a requested product absent from the table at loop
entry; an insufficient-stock error carries an available amount strictly
below the requested quantity of one of the items, and the name of that
item's (existing) product. -/
theorem reserveItems_err (items : List CreateItem) :
    ∀ st st' e, reserveItems items st = (st', some e) →
      (∃ pid, e = .lockConflict pid ∧ pid ∈ items.map CreateItem.productId ∧
        lockLookup st.locks pid ≠ none) ∨
      (∃ pid, e = .productNotFound pid ∧ pid ∈ items.map CreateItem.productId ∧
        findProduct st.products pid = none) ∨
      (∃ n a q, e = .insufficientStock n a q ∧ a < q ∧
        ∃ it ∈ items, it.quantity = q ∧
          ∃ p, findProduct st.products it.productId = some p ∧ p.name = n) := by
  induction items with
  | nil =>
    intro st st' e h
    simp [reserveItems, Prod.ext_iff] at h
  | cons it rest ih =>
    intro st st' e h
    unfold reserveItems at h
    cases hacq : lockAcquire st.locks it.productId st.counter with
    | none =>
      simp only [hacq] at h
      obtain ⟨-, he⟩ : _ ∧ some (OrderError.lockConflict it.productId) = some e := by
        simpa [Prod.ext_iff] using h
      refine Or.inl ⟨it.productId, ?_, ?_, lockAcquire_none hacq⟩
      · exact (Option.some_injective _ he).symm
      · simp
    | some locks1 =>
      simp only [hacq] at h
      obtain ⟨hfree, rfl⟩ := lockAcquire_some hacq
      cases hp : findProduct st.products it.productId with
      | none =>
        simp only [hp] at h
        obtain ⟨-, he⟩ : _ ∧ some (OrderError.productNotFound it.productId) = some e := by
          simpa [Prod.ext_iff] using h
        refine Or.inr (Or.inl ⟨it.productId, ?_, ?_, hp⟩)
        · exact (Option.some_injective _ he).symm
        · simp
      | some p =>
        simp only [hp] at h
        have hpid : p.id = it.productId := findProduct_some_id hp
        by_cases hstock : p.stock < it.quantity
        · rw [if_pos hstock] at h
          obtain ⟨-, he⟩ :
              _ ∧ some (OrderError.insufficientStock p.name p.stock it.quantity)
                = some e := by
            simpa [Prod.ext_iff] using h
          refine Or.inr (Or.inr ⟨p.name, p.stock, it.quantity,
            (Option.some_injective _ he).symm, hstock,
            it, by simp, rfl, p, hp, rfl⟩)
        · rw [if_neg hstock] at h
          have hp' : findProduct st.products
              (shiftReserve it.quantity p).id = some p := by
            simpa [shiftReserve, hpid] using hp
          have h2 : reserveItems rest
              ⟨saveProduct st.products (shiftReserve it.quantity p),
                cacheDel st.cache it.productId,
                lockDel (⟨it.productId, st.counter, 30⟩ :: st.locks) it.productId,
                st.counter + 1, st.total + p.price * it.quantity⟩ =
              (st', some e) := h
          rcases ih _ _ _ h2 with
            ⟨pid, he, hmem, hlock⟩ | ⟨pid, he, hmem, hnone⟩ |
              ⟨n, a, q, he, hlt, it2, hmem, hq, p2, hfind, hname⟩
          · refine Or.inl ⟨pid, he, by simp [hmem], ?_⟩
            dsimp only at hlock
            rw [lockDel_cons_self, lockLookup_lockDel] at hlock
            by_cases hc : pid = it.productId
            · rw [if_pos hc] at hlock
              exact absurd rfl hlock
            · rw [if_neg hc] at hlock
              exact hlock
          · refine Or.inr (Or.inl ⟨pid, he, by simp [hmem], ?_⟩)
            dsimp only at hnone
            have hmap := findProduct_saveProduct st.products
              (shiftReserve it.quantity p) pid
            rw [hnone] at hmap
            exact Option.map_eq_none'.mp hmap.symm
          · refine Or.inr (Or.inr ⟨n, a, q, he, hlt, it2, by simp [hmem], hq, ?_⟩)
            dsimp only at hfind
            have hmap := findProduct_saveProduct_map Product.name st.products
              (shiftReserve it.quantity p) p hp' rfl it2.productId
            rw [hfind] at hmap
            obtain ⟨p0, hp0, hn0⟩ := Option.map_eq_some'.mp hmap.symm
            exact ⟨p0, hp0, hn0.trans hname⟩

/-- A successful reservation loop saw every requested product in the
table it started from. -/
theorem reserveItems_found (items : List CreateItem) :
    ∀ st st', reserveItems items st = (st', none) →
      ∀ it ∈ items, (findProduct st.products it.productId).isSome = true := by
  induction items with
  | nil => intro st st' h it hit; cases hit
  | cons it0 rest ih =>
    intro st st' h it hit
    unfold reserveItems at h
    cases hacq : lockAcquire st.locks it0.productId st.counter with
    | none => simp [hacq] at h
    | some locks1 =>
      simp only [hacq] at h
      obtain ⟨-, rfl⟩ := lockAcquire_some hacq
      cases hp : findProduct st.products it0.productId with
      | none => simp [hp] at h
      | some p =>
        simp only [hp] at h
        by_cases hstock : p.stock < it0.quantity
        · simp [if_pos hstock] at h
        · rw [if_neg hstock] at h
          have hpid : p.id = it0.productId := findProduct_some_id hp
          rcases List.mem_cons.mp hit with rfl | hmem
          · simp [hp]
          · have h2 : reserveItems rest
                ⟨saveProduct st.products (shiftReserve it0.quantity p),
                  cacheDel st.cache it0.productId,
                  lockDel (⟨it0.productId, st.counter, 30⟩ :: st.locks)
                    it0.productId,
                  st.counter + 1, st.total + p.price * it0.quantity⟩ =
                (st', none) := h
            have hrec := ih _ _ h2 it hmem
            dsimp only at hrec
            rw [findProduct_saveProduct] at hrec
            simpa using hrec

/-- Unfolding equation of `lineSum` at a cons. -/
theorem lineSum_cons (ps : List Product) (it : CreateItem)
    (rest : List CreateItem) :
    lineSum ps (it :: rest) =
      (match findProduct ps it.productId with
       | some p => p.price
       | none => 0) * it.quantity + lineSum ps rest := rfl

/-- A successful reservation loop accumulates exactly the line-total sum
of the requested items, priced from the table it started from. -/
theorem reserveItems_total (items : List CreateItem) :
    ∀ st st', reserveItems items st = (st', none) →
      st'.total = st.total + lineSum st.products items := by
  induction items with
  | nil =>
    intro st st' h
    obtain ⟨rfl, -⟩ : st = st' ∧ (none : Option OrderError) = none := by
      simpa [reserveItems, Prod.ext_iff] using h
    simp [lineSum]
  | cons it rest ih =>
    intro st st' h
    unfold reserveItems at h
    cases hacq : lockAcquire st.locks it.productId st.counter with
    | none => simp [hacq] at h
    | some locks1 =>
      simp only [hacq] at h
      obtain ⟨-, rfl⟩ := lockAcquire_some hacq
      cases hp : findProduct st.products it.productId with
      | none => simp [hp] at h
      | some p =>
        simp only [hp] at h
        by_cases hstock : p.stock < it.quantity
        · simp [if_pos hstock] at h
        · rw [if_neg hstock] at h
          have hpid : p.id = it.productId := findProduct_some_id hp
          have hp' : findProduct st.products
              (shiftReserve it.quantity p).id = some p := by
            simpa [shiftReserve, hpid] using hp
          have h2 : reserveItems rest
              ⟨saveProduct st.products (shiftReserve it.quantity p),
                cacheDel st.cache it.productId,
                lockDel (⟨it.productId, st.counter, 30⟩ :: st.locks)
                  it.productId,
                st.counter + 1, st.total + p.price * it.quantity⟩ =
              (st', none) := h
          have hrec := ih _ _ h2
          dsimp only at hrec
          have hcongr : lineSum
              (saveProduct st.products (shiftReserve it.quantity p)) rest =
              lineSum st.products rest :=
            lineSum_congr _ _
              (fun pid => findProduct_saveProduct_map Product.price
                st.products (shiftReserve it.quantity p) p hp' rfl pid) rest
          rw [hcongr] at hrec
          rw [hrec, lineSum_cons, hp]
          ring

/-- When every requested product is present, the order-item loop cannot
hit the `product!` crash. -/
theorem buildItems_isSome (items : List CreateItem) :
    ∀ (ps : List Product) (oid c : Nat),
      (∀ it ∈ items, (findProduct ps it.productId).isSome = true) →
      (buildItems items ps oid c).isSome = true := by
  induction items with
  | nil => intro ps oid c h; rfl
  | cons it rest ih =>
    intro ps oid c h
    unfold buildItems
    cases hp : findProduct ps it.productId with
    | none =>
      have h2 := h it (by simp)
      rw [hp] at h2
      cases h2
    | some p =>
      have hrec := ih ps oid (c + 1) (fun it2 hit2 => h it2 (by simp [hit2]))
      cases hb : buildItems rest ps oid (c + 1) with
      | none => rw [hb] at hrec; cases hrec
      | some r => cases r; simp [hb]

/-- What the order-item loop writes: every produced row belongs to the
order, snapshots the unit price of its product as found in the table,
sets its line total to `price * quantity`, and the rows' line totals sum
to the items' line-total sum. -/
theorem buildItems_spec (items : List CreateItem) :
    ∀ (ps : List Product) (oid c : Nat) (tail : List OrderItem) (c2 : Nat),
      buildItems items ps oid c = some (tail, c2) →
      (∀ oi ∈ tail, oi.orderId = oid ∧
        oi.totalPrice = oi.unitPrice * oi.quantity ∧
        ∃ p, findProduct ps oi.productId = some p ∧ oi.unitPrice = p.price) ∧
      (tail.map (fun oi => oi.unitPrice * oi.quantity)).sum =
        lineSum ps items := by
  induction items with
  | nil =>
    intro ps oid c tail c2 h
    obtain ⟨rfl, -⟩ : ([] : List OrderItem) = tail ∧ c = c2 := by
      simpa [buildItems, Prod.ext_iff] using h
    exact ⟨fun oi hoi => absurd hoi (List.not_mem_nil oi), by simp [lineSum]⟩
  | cons it rest ih =>
    intro ps oid c tail c2 h
    unfold buildItems at h
    cases hp : findProduct ps it.productId with
    | none => rw [hp] at h; cases h
    | some p =>
      rw [hp] at h
      cases hb : buildItems rest ps oid (c + 1) with
      | none => rw [hb] at h; cases h
      | some r =>
        obtain ⟨tl, c3⟩ := r
        rw [hb] at h
        obtain ⟨rfl, rfl⟩ :
            (⟨c, oid, it.productId, it.quantity, p.price,
              p.price * it.quantity⟩ : OrderItem) :: tl = tail ∧ c3 = c2 := by
          simpa [Prod.ext_iff] using h
        obtain ⟨hall, hsum⟩ := ih ps oid (c + 1) tl _ hb
        refine ⟨?_, ?_⟩
        · intro oi hoi
          rcases List.mem_cons.mp hoi with rfl | hmem
          · exact ⟨rfl, rfl, p, hp, rfl⟩
          · exact hall oi hmem
        · rw [lineSum_cons, hp]
          simp only [List.map_cons, List.sum_cons, hsum]

/-- Full characterization of a successful `createOrder` run: the user
existed, the reservation loop succeeded, the item loop produced the rows,
and the committed state appends the order, its items and the
`ORDER_CREATED` event row over the reserved product table, with the
publish outcome touching only the broker log. -/
theorem createOrder_ok_spec (s : ServiceState) (u : Nat)
    (items : List CreateItem) (pub : Bool) (o : Order) (s2 : ServiceState)
    (h : createOrder s u items pub = (.ok o, s2)) :
    s.db.users.contains u = true ∧
    ∃ st oitems c3,
      reserveItems items ⟨s.db.products, s.cache, s.locks, s.counter, 0⟩ =
        (st, none) ∧
      buildItems items st.products (st.counter + 1) (st.counter + 2) =
        some (oitems, c3) ∧
      o = ⟨st.counter + 1, u, .PENDING, st.total, st.counter⟩ ∧
      s2 = ⟨⟨s.db.users, st.products, s.db.orders ++ [o],
             s.db.orderItems ++ oitems,
             s.db.eventLogs ++ [⟨c3, st.counter + 1, .ORDER_CREATED⟩]⟩,
            st.cache, st.locks, c3 + 1,
            if pub then s.broker ++ [⟨st.counter + 1, u, st.counter, st.total⟩]
            else s.broker⟩ := by
  unfold createOrder at h
  by_cases hu : s.db.users.contains u
  · rw [if_pos hu] at h
    refine ⟨hu, ?_⟩
    cases hres : (reserveItems items
        ⟨s.db.products, s.cache, s.locks, s.counter, 0⟩).2 with
    | some e => simp only [hres] at h; exact absurd (congrArg Prod.fst h) (by simp)
    | none =>
      simp only [hres] at h
      cases hb : buildItems items
          (reserveItems items ⟨s.db.products, s.cache, s.locks, s.counter, 0⟩).1.products
          ((reserveItems items ⟨s.db.products, s.cache, s.locks, s.counter, 0⟩).1.counter + 1)
          ((reserveItems items ⟨s.db.products, s.cache, s.locks, s.counter, 0⟩).1.counter + 2) with
      | none => simp only [hb] at h; exact absurd (congrArg Prod.fst h) (by simp)
      | some r =>
        obtain ⟨oitems, c3⟩ := r
        simp only [hb] at h
        obtain ⟨ho, hs⟩ : Except.ok
            (⟨(reserveItems items ⟨s.db.products, s.cache, s.locks, s.counter, 0⟩).1.counter + 1,
              u, .PENDING,
              (reserveItems items ⟨s.db.products, s.cache, s.locks, s.counter, 0⟩).1.total,
              (reserveItems items ⟨s.db.products, s.cache, s.locks, s.counter, 0⟩).1.counter⟩ : Order)
            = Except.ok o ∧ _ = s2 := ⟨congrArg Prod.fst h, congrArg Prod.snd h⟩
        refine ⟨(reserveItems items ⟨s.db.products, s.cache, s.locks, s.counter, 0⟩).1,
          oitems, c3, ?_, hb, ?_, ?_⟩
        · rw [← hres]
        · exact (Except.ok.injEq _ _).mp ho |>.symm
        · rw [← hs, ← ((Except.ok.injEq _ _).mp ho)]
  · rw [if_neg hu] at h
    exact absurd (congrArg Prod.fst h) (by simp)

/-- Defining equation: an absent user fails the order untouched. -/
theorem createOrder_def_user_absent (s : ServiceState) (u : Nat)
    (items : List CreateItem) (pub : Bool)
    (hu : s.db.users.contains u = false) :
    createOrder s u items pub = (.error .userNotFound, s) := by
  unfold createOrder
  rw [if_neg (fun hc => Bool.false_ne_true (hu ▸ hc))]

/-- Defining equation: a reservation-loop failure rolls the transaction
back, keeping the Redis effects and consumed uuids of the loop. -/
theorem createOrder_def_reserve_err (s : ServiceState) (u : Nat)
    (items : List CreateItem) (pub : Bool) (st : ResState) (e : OrderError)
    (hu : s.db.users.contains u = true)
    (hres : reserveItems items ⟨s.db.products, s.cache, s.locks, s.counter, 0⟩ =
      (st, some e)) :
    createOrder s u items pub =
      (.error e,
       { s with cache := st.cache, locks := st.locks, counter := st.counter }) := by
  unfold createOrder
  rw [if_pos hu]
  simp only [hres]

/-- Defining equation: a crash of the item loop's `product!` assertion
rolls the transaction back. -/
theorem createOrder_def_build_none (s : ServiceState) (u : Nat)
    (items : List CreateItem) (pub : Bool) (st : ResState)
    (hu : s.db.users.contains u = true)
    (hres : reserveItems items ⟨s.db.products, s.cache, s.locks, s.counter, 0⟩ =
      (st, none))
    (hb : buildItems items st.products (st.counter + 1) (st.counter + 2) = none) :
    createOrder s u items pub =
      (.error .internal,
       { s with cache := st.cache, locks := st.locks,
                counter := st.counter + 2 }) := by
  unfold createOrder
  rw [if_pos hu]
  simp only [hres, hb]

/-- Defining equation of the success path. -/
theorem createOrder_def_ok (s : ServiceState) (u : Nat)
    (items : List CreateItem) (pub : Bool) (st : ResState)
    (oitems : List OrderItem) (c3 : Nat)
    (hu : s.db.users.contains u = true)
    (hres : reserveItems items ⟨s.db.products, s.cache, s.locks, s.counter, 0⟩ =
      (st, none))
    (hb : buildItems items st.products (st.counter + 1) (st.counter + 2) =
      some (oitems, c3)) :
    createOrder s u items pub =
      (.ok (⟨st.counter + 1, u, .PENDING, st.total, st.counter⟩ : Order),
       ⟨⟨s.db.users, st.products,
         s.db.orders ++ [⟨st.counter + 1, u, .PENDING, st.total, st.counter⟩],
         s.db.orderItems ++ oitems,
         s.db.eventLogs ++ [⟨c3, st.counter + 1, .ORDER_CREATED⟩]⟩,
        st.cache, st.locks, c3 + 1,
        if pub then s.broker ++ [⟨st.counter + 1, u, st.counter, st.total⟩]
        else s.broker⟩) := by
  unfold createOrder
  rw [if_pos hu]
  simp only [hres, hb]

/-- Master analysis of a failed `createOrder`: the relational store and
broker log are untouched, and the failure came from the user check, the
reservation loop, or the item-loop crash. -/
theorem createOrder_err_spec (s : ServiceState) (u : Nat)
    (items : List CreateItem) (pub : Bool) (e : OrderError) (s2 : ServiceState)
    (h : createOrder s u items pub = (.error e, s2)) :
    s2.db = s.db ∧ s2.broker = s.broker ∧
    (s.db.users.contains u = false → e = .userNotFound ∧ s2 = s) ∧
    (s.db.users.contains u = true →
      (∃ st, reserveItems items ⟨s.db.products, s.cache, s.locks, s.counter, 0⟩ =
        (st, some e)) ∨
      (e = .internal ∧ ∃ st,
        reserveItems items ⟨s.db.products, s.cache, s.locks, s.counter, 0⟩ =
          (st, none) ∧
        buildItems items st.products (st.counter + 1) (st.counter + 2) = none)) := by
  by_cases hu : s.db.users.contains u
  · have hu' : s.db.users.contains u = true := by simpa using hu
    cases hres : reserveItems items ⟨s.db.products, s.cache, s.locks, s.counter, 0⟩ with
    | mk st err =>
      cases err with
      | some e2 =>
        rw [createOrder_def_reserve_err s u items pub st e2 hu' hres] at h
        obtain ⟨he, rfl⟩ : Except.error e2 = (Except.error e : Except OrderError Order) ∧
            ({ s with cache := st.cache, locks := st.locks,
                      counter := st.counter } : ServiceState) = s2 :=
          ⟨congrArg Prod.fst h, congrArg Prod.snd h⟩
        obtain rfl : e2 = e := by simpa using he
        exact ⟨rfl, rfl, fun hf => by rw [hu'] at hf; simp at hf,
          fun _ => Or.inl ⟨st, rfl⟩⟩
      | none =>
        cases hb : buildItems items st.products (st.counter + 1) (st.counter + 2) with
        | none =>
          rw [createOrder_def_build_none s u items pub st hu' hres hb] at h
          obtain ⟨he, rfl⟩ : Except.error .internal =
              (Except.error e : Except OrderError Order) ∧
              ({ s with cache := st.cache, locks := st.locks,
                        counter := st.counter + 2 } : ServiceState) = s2 :=
            ⟨congrArg Prod.fst h, congrArg Prod.snd h⟩
          obtain rfl : OrderError.internal = e := by simpa using he
          exact ⟨rfl, rfl, fun hf => by rw [hu'] at hf; simp at hf,
            fun _ => Or.inr ⟨rfl, st, rfl, hb⟩⟩
        | some r =>
          obtain ⟨oitems, c3⟩ := r
          rw [createOrder_def_ok s u items pub st oitems c3 hu' hres hb] at h
          exact absurd (congrArg Prod.fst h) (by simp)
  · have hu' : s.db.users.contains u = false := by simpa using hu
    rw [createOrder_def_user_absent s u items pub hu'] at h
    obtain ⟨he, rfl⟩ : Except.error .userNotFound =
        (Except.error e : Except OrderError Order) ∧ s = s2 :=
      ⟨congrArg Prod.fst h, congrArg Prod.snd h⟩
    obtain rfl : OrderError.userNotFound = e := by simpa using he
    exact ⟨rfl, rfl, fun _ => ⟨rfl, rfl⟩, fun ht => by rw [hu'] at ht; simp at ht⟩

/-- Defining equation: cancelling an unknown order returns `null` and
changes nothing. -/
theorem cancelOrder_none_spec (s : ServiceState) (oid : Nat)
    (h : findOrder s.db.orders oid = none) :
    cancelOrder s oid = (.ok none, s) := by
  unfold cancelOrder
  simp only [h]

/-- Defining equation: cancelling an already-CANCELLED order throws and
is rolled back with nothing changed. -/
theorem cancelOrder_already_spec (s : ServiceState) (oid : Nat) (o : Order)
    (h : findOrder s.db.orders oid = some o)
    (hc : o.status = OrderStatus.CANCELLED) :
    cancelOrder s oid = (.error .alreadyCancelled, s) := by
  unfold cancelOrder
  simp only [h]
  rw [if_pos hc]

/-- Defining equation of a successful cancellation: restored products,
CANCELLED status saved, `ORDER_CANCELLED` event appended, one uuid
consumed, order-item rows and broker untouched. -/
theorem cancelOrder_ok_spec (s : ServiceState) (oid : Nat) (o : Order)
    (h : findOrder s.db.orders oid = some o)
    (hc : ¬ o.status = OrderStatus.CANCELLED) :
    cancelOrder s oid =
      (.ok (some { o with status := OrderStatus.CANCELLED }),
       ⟨⟨s.db.users,
         (restoreItems (orderItemsOf s.db oid) s.db.products s.cache).1,
         saveOrder s.db.orders { o with status := OrderStatus.CANCELLED },
         s.db.orderItems,
         s.db.eventLogs ++ [⟨s.counter, oid, .ORDER_CANCELLED⟩]⟩,
        (restoreItems (orderItemsOf s.db oid) s.db.products s.cache).2,
        s.locks, s.counter + 1, s.broker⟩) := by
  unfold cancelOrder
  simp only [h]
  rw [if_neg hc]

/-- A reservation shift does not change `stock + reservedStock`. -/
theorem sumAt_of_map_shiftReserve (ps qs : List Product) (d : Int) (pid : Nat)
    (h : findProduct qs pid = (findProduct ps pid).map (shiftReserve d)) :
    sumAt qs pid = sumAt ps pid := by
  unfold sumAt
  rw [h]
  cases findProduct ps pid with
  | none => rfl
  | some p =>
    simp only [Option.map_some', shiftReserve]
    congr 1
    ring

/-- A restoration shift does not change `stock + reservedStock`. -/
theorem sumAt_of_map_shiftRestore (ps qs : List Product) (d : Int) (pid : Nat)
    (h : findProduct qs pid = (findProduct ps pid).map (shiftRestore d)) :
    sumAt qs pid = sumAt ps pid := by
  unfold sumAt
  rw [h]
  cases findProduct ps pid with
  | none => rfl
  | some p =>
    simp only [Option.map_some', shiftRestore]
    congr 1
    ring

/-- Reading the key just written by `setEx` returns the stored snapshot. -/
theorem cacheGet_cacheSetEx (c : List CacheEntry) (k ttl : Nat) (p : Product) :
    cacheGet (cacheSetEx c k ttl p) k = some p := by
  simp [cacheGet, cacheSetEx, List.find?_cons_of_pos]

/-- The reservation loop never changes any product's price under lookup. -/
theorem reserveItems_price (items : List CreateItem) (st st' : ResState)
    (h : reserveItems items st = (st', none)) (pid : Nat) :
    (findProduct st'.products pid).map Product.price =
      (findProduct st.products pid).map Product.price := by
  rw [reserveItems_find items st st' h pid]
  cases findProduct st.products pid with
  | none => rfl
  | some p => simp [shiftReserve]

/-- On success, the committed product table is the reserved table: every
product moved its total requested quantity from `stock` to
`reservedStock`, pointwise under lookup. -/
theorem createOrder_products_ok (s : ServiceState) (u : Nat)
    (items : List CreateItem) (pub : Bool) (o : Order) (s2 : ServiceState)
    (h : createOrder s u items pub = (.ok o, s2)) (pid : Nat) :
    findProduct s2.db.products pid =
      (findProduct s.db.products pid).map (shiftReserve (totalQty items pid)) := by
  obtain ⟨-, st, oitems, c3, hres, -, -, rfl⟩ := createOrder_ok_spec s u items pub o s2 h
  exact reserveItems_find items _ _ hres pid

/-- C1: refuted on the code. In Scenario 1 (stock 10, two concurrent
requests of quantity 6), the interleaving `oversellSchedule` — enabled by
`createOrder` releasing the product lock (line 83) before its transaction
commits (line 129) — lets BOTH requests commit: the successful requests
reserve 12 > 10 units, contradicting both the no-oversell bound and the
claimed "exactly one succeeds" outcome (the final row even shows stock 4,
reservedStock 6, silently losing request A's update). -/
theorem oversell_race :
    (crun 6 oversellSchedule cinit).reqA.phase = 4 ∧
    (crun 6 oversellSchedule cinit).reqB.phase = 4 ∧
    reservedBySuccesses 6 (crun 6 oversellSchedule cinit) = 12 ∧
    ¬ reservedBySuccesses 6 (crun 6 oversellSchedule cinit) ≤ 10 ∧
    (crun 6 oversellSchedule cinit).stock = 4 ∧
    (crun 6 oversellSchedule cinit).reserved = 6 := by decide

/-- C3: if `createOrder` fails at any step, the whole transaction is
rolled back — re-reading the store afterwards shows the pre-request
product rows, and no order, order item or event log created by the failed
request is visible. -/
theorem createOrder_failure_rollback (s : ServiceState) (u : Nat)
    (items : List CreateItem) (pub : Bool) (e : OrderError)
    (s2 : ServiceState) (h : createOrder s u items pub = (.error e, s2)) :
    s2.db.products = s.db.products ∧ s2.db.orders = s.db.orders ∧
    s2.db.orderItems = s.db.orderItems ∧
    s2.db.eventLogs = s.db.eventLogs := by
  have hd := (createOrder_err_spec s u items pub e s2 h).1
  exact ⟨by rw [hd], by rw [hd], by rw [hd], by rw [hd]⟩

/-- Witness for C3: a request for 20 units against stock 10 fails with
insufficient stock and leaves every table as it was. -/
theorem createOrder_failure_rollback_witness :
    (createOrder demoState 7 [⟨1, 20⟩] true).2.db.products =
      demoState.db.products ∧
    (createOrder demoState 7 [⟨1, 20⟩] true).2.db.orders =
      demoState.db.orders ∧
    (createOrder demoState 7 [⟨1, 20⟩] true).2.db.orderItems =
      demoState.db.orderItems ∧
    (createOrder demoState 7 [⟨1, 20⟩] true).2.db.eventLogs =
      demoState.db.eventLogs :=
  createOrder_failure_rollback demoState 7 [⟨1, 20⟩] true
    (.insufficientStock "widget" 10 20)
    (createOrder demoState 7 [⟨1, 20⟩] true).2 rfl

/-- C6: the publish outcome after commit never reaches the caller or the
store — a run whose publish throws returns the same result and leaves the
same relational store, cache, lock keys and uuid counter as one whose
publish succeeds, and the order a committed run returns is stored. -/
theorem publish_failure_swallowed (s : ServiceState) (u : Nat)
    (items : List CreateItem) :
    (createOrder s u items true).1 = (createOrder s u items false).1 ∧
    (createOrder s u items true).2.db = (createOrder s u items false).2.db ∧
    (createOrder s u items true).2.cache =
      (createOrder s u items false).2.cache ∧
    (createOrder s u items true).2.locks =
      (createOrder s u items false).2.locks ∧
    (createOrder s u items true).2.counter =
      (createOrder s u items false).2.counter ∧
    ∀ o, (createOrder s u items false).1 = .ok o →
      o ∈ (createOrder s u items false).2.db.orders := by
  by_cases hu : s.db.users.contains u
  · have hu' : s.db.users.contains u = true := by simpa using hu
    cases hres : reserveItems items
        ⟨s.db.products, s.cache, s.locks, s.counter, 0⟩ with
    | mk st err =>
      cases err with
      | some e =>
        rw [createOrder_def_reserve_err s u items true st e hu' hres,
          createOrder_def_reserve_err s u items false st e hu' hres]
        exact ⟨rfl, rfl, rfl, rfl, rfl, fun o ho => by simp at ho⟩
      | none =>
        cases hb : buildItems items st.products (st.counter + 1)
            (st.counter + 2) with
        | none =>
          rw [createOrder_def_build_none s u items true st hu' hres hb,
            createOrder_def_build_none s u items false st hu' hres hb]
          exact ⟨rfl, rfl, rfl, rfl, rfl, fun o ho => by simp at ho⟩
        | some r =>
          obtain ⟨oitems, c3⟩ := r
          rw [createOrder_def_ok s u items true st oitems c3 hu' hres hb,
            createOrder_def_ok s u items false st oitems c3 hu' hres hb]
          refine ⟨rfl, rfl, rfl, rfl, rfl, fun o ho => ?_⟩
          obtain rfl :
              (⟨st.counter + 1, u, .PENDING, st.total, st.counter⟩ : Order)
                = o := by simpa using ho
          simp
  · have hu' : s.db.users.contains u = false := by simpa using hu
    rw [createOrder_def_user_absent s u items true hu',
      createOrder_def_user_absent s u items false hu']
    exact ⟨rfl, rfl, rfl, rfl, rfl, fun o ho => by simp at ho⟩

/-- Witness for C6: the scenario order is created identically with a
failing publish, and the returned order is stored. -/
theorem publish_failure_swallowed_witness :
    (createOrder demoState 7 [⟨1, 3⟩] true).1 =
      (createOrder demoState 7 [⟨1, 3⟩] false).1 ∧
    (⟨2, 7, .PENDING, 15, 1⟩ : Order) ∈
      (createOrder demoState 7 [⟨1, 3⟩] false).2.db.orders :=
  ⟨(publish_failure_swallowed demoState 7 [⟨1, 3⟩]).1,
   (publish_failure_swallowed demoState 7 [⟨1, 3⟩]).2.2.2.2.2
     ⟨2, 7, .PENDING, 15, 1⟩ rfl⟩

/-- C7: `getProductById` is cache-aside — a hit returns the snapshot with
no store read, no cache write and no ttl refresh; a miss on an absent
product reads the store once and writes nothing; a miss on a present
product reads the store once, writes the snapshot back with ttl 3600
seconds, and an immediately repeated call reads the store zero times. -/
theorem getProductById_cache_aside (cache : List CacheEntry)
    (ps : List Product) (pid : Nat) :
    (∀ p, cacheGet cache pid = some p →
      getProductById cache ps pid = (some p, cache, 0, 0)) ∧
    (cacheGet cache pid = none → findProduct ps pid = none →
      getProductById cache ps pid = (none, cache, 1, 0)) ∧
    (∀ p, cacheGet cache pid = none → findProduct ps pid = some p →
      getProductById cache ps pid =
        (some p, cacheSetEx cache pid 3600 p, 1, 1) ∧
      getProductById (cacheSetEx cache pid 3600 p) ps pid =
        (some p, cacheSetEx cache pid 3600 p, 0, 0)) := by
  refine ⟨fun p hp => ?_, fun hc hf => ?_, fun p hc hf => ⟨?_, ?_⟩⟩ <;>
    unfold getProductById
  · simp only [hp]
  · simp only [hc, hf]
  · simp only [hc, hf]
  · simp only [cacheGet_cacheSetEx]

/-- Witness for C7: cold-cache read of the demo product does one store
read and one cache write; the repeated call does zero store reads. -/
theorem getProductById_cache_aside_witness :
    getProductById [] [demoProduct] 1 =
      (some demoProduct, cacheSetEx [] 1 3600 demoProduct, 1, 1) ∧
    getProductById (cacheSetEx [] 1 3600 demoProduct) [demoProduct] 1 =
      (some demoProduct, cacheSetEx [] 1 3600 demoProduct, 0, 0) :=
  (getProductById_cache_aside [] [demoProduct] 1).2.2 demoProduct rfl rfl

/-- C2: every `createOrder` and every `cancelOrder` execution preserves
`stock + reservedStock` for every product; a successful reservation moves
exactly the requested quantity from `stock` to `reservedStock` (the pair
changes by `(-q, +q)` per product), and a successful cancellation moves
the order's quantities back (`(+q, -q)`). -/
theorem stock_reservedStock_conservation (s : ServiceState) (u oid pid : Nat)
    (items : List CreateItem) (pub : Bool) :
    sumAt (createOrder s u items pub).2.db.products pid =
      sumAt s.db.products pid ∧
    sumAt (cancelOrder s oid).2.db.products pid = sumAt s.db.products pid ∧
    (∀ o s2, createOrder s u items pub = (.ok o, s2) →
      findProduct s2.db.products pid =
        (findProduct s.db.products pid).map
          (shiftReserve (totalQty items pid))) ∧
    (∀ o s2, cancelOrder s oid = (.ok (some o), s2) →
      findProduct s2.db.products pid =
        (findProduct s.db.products pid).map
          (shiftRestore (totalQtyO (orderItemsOf s.db oid) pid))) := by
  refine ⟨?_, ?_,
    fun o s2 h => createOrder_products_ok s u items pub o s2 h pid,
    fun o s2 h => ?_⟩
  · cases hc : createOrder s u items pub with
    | mk r s2 =>
      cases r with
      | error e =>
        show sumAt s2.db.products pid = sumAt s.db.products pid
        rw [(createOrder_err_spec s u items pub e s2 hc).1]
      | ok o =>
        exact sumAt_of_map_shiftReserve s.db.products s2.db.products
          (totalQty items pid) pid
          (createOrder_products_ok s u items pub o s2 hc pid)
  · cases hf : findOrder s.db.orders oid with
    | none => rw [cancelOrder_none_spec s oid hf]
    | some o =>
      by_cases hcs : o.status = OrderStatus.CANCELLED
      · rw [cancelOrder_already_spec s oid o hf hcs]
      · rw [cancelOrder_ok_spec s oid o hf hcs]
        exact sumAt_of_map_shiftRestore s.db.products _
          (totalQtyO (orderItemsOf s.db oid) pid) pid
          (restoreItems_find (orderItemsOf s.db oid) s.db.products s.cache pid)
  · cases hf : findOrder s.db.orders oid with
    | none =>
      rw [cancelOrder_none_spec s oid hf] at h
      exact absurd (congrArg Prod.fst h) (by simp)
    | some o2 =>
      by_cases hcs : o2.status = OrderStatus.CANCELLED
      · rw [cancelOrder_already_spec s oid o2 hf hcs] at h
        exact absurd (congrArg Prod.fst h) (by simp)
      · rw [cancelOrder_ok_spec s oid o2 hf hcs] at h
        obtain rfl := (congrArg Prod.snd h)
        exact restoreItems_find (orderItemsOf s.db oid) s.db.products
          s.cache pid

/-- Witness for C2: the Scenario 2 creation moves (stock, reservedStock)
from (10, 0) to (7, 3), preserving the sum, and the subsequent
cancellation restores (10, 0). -/
theorem stock_reservedStock_conservation_witness :
    sumAt (createOrder demoState 7 [⟨1, 3⟩] true).2.db.products 1 =
      sumAt demoState.db.products 1 ∧
    findProduct (createOrder demoState 7 [⟨1, 3⟩] true).2.db.products 1 =
      (findProduct demoState.db.products 1).map
        (shiftReserve (totalQty [⟨1, 3⟩] 1)) ∧
    findProduct (cancelOrder demoAfterCreate 2).2.db.products 1 =
      (findProduct demoAfterCreate.db.products 1).map
        (shiftRestore (totalQtyO (orderItemsOf demoAfterCreate.db 2) 1)) := by
  have h1 := stock_reservedStock_conservation demoState 7 0 1 [⟨1, 3⟩] true
  have h2 := stock_reservedStock_conservation demoAfterCreate 7 2 1 [] true
  exact ⟨h1.1,
    h1.2.2.1 ⟨2, 7, .PENDING, 15, 1⟩ (createOrder demoState 7 [⟨1, 3⟩] true).2
      rfl,
    h2.2.2.2 ⟨2, 7, .CANCELLED, 15, 1⟩ (cancelOrder demoAfterCreate 2).2 rfl⟩

/-- C4: cancelling a non-CANCELLED order returns all item quantities from
`reservedStock` back to `stock` for the referenced products, marks the
order CANCELLED, appends one `ORDER_CANCELLED` event row, and leaves the
item rows in place; cancelling an already-CANCELLED order fails with
already-cancelled and changes nothing. -/
theorem cancelOrder_restores_and_marks (s : ServiceState) (oid : Nat)
    (o : Order) (h : findOrder s.db.orders oid = some o) :
    (o.status ≠ OrderStatus.CANCELLED →
      (cancelOrder s oid).1 =
        .ok (some { o with status := OrderStatus.CANCELLED }) ∧
      findOrder (cancelOrder s oid).2.db.orders oid =
        some { o with status := OrderStatus.CANCELLED } ∧
      (cancelOrder s oid).2.db.eventLogs =
        s.db.eventLogs ++ [⟨s.counter, oid, .ORDER_CANCELLED⟩] ∧
      (cancelOrder s oid).2.db.orderItems = s.db.orderItems ∧
      ∀ pid, findProduct (cancelOrder s oid).2.db.products pid =
        (findProduct s.db.products pid).map
          (shiftRestore (totalQtyO (orderItemsOf s.db oid) pid))) ∧
    (o.status = OrderStatus.CANCELLED →
      cancelOrder s oid = (.error .alreadyCancelled, s)) := by
  constructor
  · intro hc
    rw [cancelOrder_ok_spec s oid o h hc]
    refine ⟨rfl, ?_, rfl, rfl,
      fun pid => restoreItems_find (orderItemsOf s.db oid) s.db.products
        s.cache pid⟩
    have hid : o.id = oid := findOrder_some_id h
    have h2 : findOrder s.db.orders
        ({ o with status := OrderStatus.CANCELLED } : Order).id = some o := by
      show findOrder s.db.orders o.id = some o
      rw [hid]
      exact h
    have h3 := findOrder_saveOrder_of_found s.db.orders o
      { o with status := OrderStatus.CANCELLED } h2
    show findOrder (saveOrder s.db.orders
      { o with status := OrderStatus.CANCELLED }) oid = _
    rw [show oid = ({ o with status := OrderStatus.CANCELLED } : Order).id
      from hid.symm]
    exact h3
  · intro hc
    exact cancelOrder_already_spec s oid o h hc

/-- Witness for C4, Scenario 2: after creating the quantity-3 order and
cancelling it, the order is CANCELLED, product 1 is back to stock 10 and
reservedStock 0, and exactly two event rows exist (`ORDER_CREATED`, then
`ORDER_CANCELLED`). -/
theorem cancelOrder_restores_and_marks_witness :
    (cancelOrder demoAfterCreate 2).1 =
      .ok (some ⟨2, 7, .CANCELLED, 15, 1⟩) ∧
    findOrder (cancelOrder demoAfterCreate 2).2.db.orders 2 =
      some ⟨2, 7, .CANCELLED, 15, 1⟩ ∧
    findProduct demoAfterCreate.db.products 1 =
      some ⟨1, "widget", 5, 7, 3, true⟩ ∧
    findProduct (cancelOrder demoAfterCreate 2).2.db.products 1 =
      some ⟨1, "widget", 5, 10, 0, true⟩ ∧
    ((cancelOrder demoAfterCreate 2).2.db.eventLogs.map EventLog.eventType) =
      [.ORDER_CREATED, .ORDER_CANCELLED] := by
  have h := (cancelOrder_restores_and_marks demoAfterCreate 2
    ⟨2, 7, .PENDING, 15, 1⟩ (by decide)).1 (by decide)
  exact ⟨h.1, h.2.1, by decide, by decide, by decide⟩

/-- C10: cancelling an order one of whose items references a product that
no longer exists still succeeds — the order is marked CANCELLED, the
`ORDER_CANCELLED` event row is appended — while the stock restoration of
the missing product is silently skipped and no error is raised. -/
theorem cancelOrder_skips_missing_product (s : ServiceState) (oid : Nat)
    (o : Order) (it : OrderItem) (h : findOrder s.db.orders oid = some o)
    (hc : o.status ≠ OrderStatus.CANCELLED)
    (hit : it ∈ orderItemsOf s.db oid)
    (hp : findProduct s.db.products it.productId = none) :
    (cancelOrder s oid).1 =
      .ok (some { o with status := OrderStatus.CANCELLED }) ∧
    (cancelOrder s oid).2.db.eventLogs =
      s.db.eventLogs ++ [⟨s.counter, oid, .ORDER_CANCELLED⟩] ∧
    findProduct (cancelOrder s oid).2.db.products it.productId = none := by
  rw [cancelOrder_ok_spec s oid o h hc]
  refine ⟨rfl, rfl, ?_⟩
  show findProduct
    (restoreItems (orderItemsOf s.db oid) s.db.products s.cache).1
      it.productId = none
  rw [restoreItems_find (orderItemsOf s.db oid) s.db.products s.cache
    it.productId, hp]
  rfl

/-- Witness for C10: cancelling order 2 of `c10State`, whose single item
references the absent product 1, succeeds and restores nothing. -/
theorem cancelOrder_skips_missing_product_witness :
    (cancelOrder c10State 2).1 = .ok (some ⟨2, 7, .CANCELLED, 15, 1⟩) ∧
    (cancelOrder c10State 2).2.db.eventLogs =
      c10State.db.eventLogs ++ [⟨c10State.counter, 2, .ORDER_CANCELLED⟩] ∧
    findProduct (cancelOrder c10State 2).2.db.products 1 = none := by
  have h := cancelOrder_skips_missing_product c10State 2
    ⟨2, 7, .PENDING, 15, 1⟩ ⟨3, 2, 1, 3, 5, 15⟩ (by decide) (by decide)
    (by decide) (by decide)
  exact h

/-- C9: the per-product lock is acquired by one atomic set-if-absent
carrying a fresh token and a 30-second expiry, with no retry — a refusal
at the first item fails the whole order with lock-conflict — and it is
released by an unconditional delete of the key that ignores the stored
token. -/
theorem lock_protocol (ls ls' : List LockEntry) (k tok : Nat)
    (s : ServiceState) (u : Nat) (it : CreateItem) (rest : List CreateItem) :
    (lockAcquire ls k tok = some ls' →
      lockLookup ls k = none ∧ ls' = ⟨k, tok, 30⟩ :: ls) ∧
    (lockAcquire ls k tok = none ↔ lockLookup ls k ≠ none) ∧
    (∀ k2, lockLookup (lockDel ls k) k2 =
      if k2 = k then none else lockLookup ls k2) ∧
    (∀ tok2 ttl2 t, lockDel (⟨k, tok2, ttl2⟩ :: t) k = lockDel t k) ∧
    (s.db.users.contains u = true → lockLookup s.locks it.productId ≠ none →
      (createOrder s u (it :: rest) true).1 =
        .error (.lockConflict it.productId)) := by
  refine ⟨fun h => lockAcquire_some h, ⟨fun h => lockAcquire_none h, ?_⟩,
    fun k2 => lockLookup_lockDel ls k k2,
    fun tok2 ttl2 t => lockDel_cons_self t k tok2 ttl2,
    fun hu hl => ?_⟩
  · intro h
    unfold lockAcquire
    cases hlk : lockLookup ls k with
    | none => exact absurd hlk h
    | some e => rfl
  · have hacq : lockAcquire s.locks it.productId s.counter = none := by
      unfold lockAcquire
      cases hlk : lockLookup s.locks it.productId with
      | none => exact absurd hlk hl
      | some e => rfl
    have hres : reserveItems (it :: rest)
        ⟨s.db.products, s.cache, s.locks, s.counter, 0⟩ =
        (⟨s.db.products, s.cache, s.locks, s.counter + 1, 0⟩,
         some (.lockConflict it.productId)) := by
      unfold reserveItems
      simp only [hacq]
    rw [createOrder_def_reserve_err s u (it :: rest) true _ _ hu hres]

/-- Witness for C9: a free key is granted with token and ttl 30; an
occupied key is refused; deletion clears the key whatever token it holds;
a request against the pre-locked demo state fails with lock-conflict. -/
theorem lock_protocol_witness :
    (lockLookup ([] : List LockEntry) 1 = none ∧
      [⟨1, 0, 30⟩] = [(⟨1, 0, 30⟩ : LockEntry)]) ∧
    lockAcquire [⟨1, 5, 30⟩] 1 7 = none ∧
    lockLookup (lockDel [⟨1, 5, 30⟩] 1) 1 = none ∧
    (createOrder lockedState 7 [⟨1, 3⟩] true).1 = .error (.lockConflict 1) := by
  have h1 := (lock_protocol [] [⟨1, 0, 30⟩] 1 0 lockedState 7 ⟨1, 3⟩ []).1 rfl
  have h2 := (lock_protocol [⟨1, 5, 30⟩] [] 1 7 lockedState 7 ⟨1, 3⟩ []).2.1.mpr
    (by decide)
  have h3 : lockLookup (lockDel [(⟨1, 5, 30⟩ : LockEntry)] 1) 1 = none := by
    have := (lock_protocol [⟨1, 5, 30⟩] [] 1 7 lockedState 7 ⟨1, 3⟩ []).2.2.1 1
    simpa using this
  have h4 := (lock_protocol [] [⟨1, 0, 30⟩] 1 0 lockedState 7 ⟨1, 3⟩
    []).2.2.2.2 (by decide) (by decide)
  exact ⟨h1, h2, h3, h4⟩

/-- C5 as stated is refuted: with the user absent and the single item's
quantity (5) above its product's stock (0), `createOrder` returns
user-not-found, so "InsufficientStock exactly when some item's requested
quantity exceeds that product's current stock" fails in the only-if
direction — the checks are ordered and the first failing one wins. -/
theorem claimC5_counterexample : ¬ claimC5At c5State 7 [⟨1, 5⟩] true := by
  intro hcl
  have hmem : isInsufficientRes (createOrder c5State 7 [⟨1, 5⟩] true).1 :=
    hcl.2.1.mpr ⟨⟨1, 5⟩, by simp, ⟨1, "widget", 5, 0, 0, true⟩, by decide,
      by decide⟩
  obtain ⟨n, a, q, he⟩ := hmem
  have hr : (createOrder c5State 7 [⟨1, 5⟩] true).1 =
      .error .userNotFound := rfl
  rw [hr] at he
  simp at he

/-- C5 amended: the error kinds are sound for the first failing check —
user-not-found is returned exactly when the user is absent;
product-not-found only for a requested product absent from the table;
insufficient-stock only with a requested quantity strictly above the
carried available amount, for an item whose (existing) product bears the
carried name; lock-conflict only for a requested product whose lock key
was occupied at call time; and the internal error is never returned. -/
theorem createOrder_error_taxonomy (s : ServiceState) (u : Nat)
    (items : List CreateItem) (pub : Bool) :
    ((createOrder s u items pub).1 = .error .userNotFound ↔
      s.db.users.contains u = false) ∧
    (∀ pid, (createOrder s u items pub).1 = .error (.productNotFound pid) →
      pid ∈ items.map CreateItem.productId ∧
      findProduct s.db.products pid = none) ∧
    (∀ n a q, (createOrder s u items pub).1 =
        .error (.insufficientStock n a q) →
      a < q ∧ ∃ it ∈ items, it.quantity = q ∧
        ∃ p, findProduct s.db.products it.productId = some p ∧
          p.name = n) ∧
    (∀ pid, (createOrder s u items pub).1 = .error (.lockConflict pid) →
      pid ∈ items.map CreateItem.productId ∧
      lockLookup s.locks pid ≠ none) ∧
    (createOrder s u items pub).1 ≠ .error .internal := by
  refine ⟨⟨?_, ?_⟩, fun pid hr => ?_, fun n a q hr => ?_, fun pid hr => ?_,
    fun hr => ?_⟩
  · intro hr
    by_cases hu : s.db.users.contains u
    · exfalso
      have hu' : s.db.users.contains u = true := by simpa using hu
      have hpair : createOrder s u items pub =
          (.error .userNotFound, (createOrder s u items pub).2) := by
        rw [← hr]
      have hsp := createOrder_err_spec s u items pub .userNotFound
        (createOrder s u items pub).2 hpair
      rcases hsp.2.2.2 hu' with ⟨st, hres⟩ | ⟨hie, -⟩
      · rcases reserveItems_err items _ _ _ hres with
          ⟨pid, he, -, -⟩ | ⟨pid, he, -, -⟩ | ⟨n, a, q, he, -⟩ <;> simp at he
      · simp at hie
    · simpa using hu
  · intro hu
    rw [createOrder_def_user_absent s u items pub hu]
  · have hpair : createOrder s u items pub =
        (.error (.productNotFound pid), (createOrder s u items pub).2) := by
      rw [← hr]
    have hsp := createOrder_err_spec s u items pub (.productNotFound pid)
      (createOrder s u items pub).2 hpair
    by_cases hu : s.db.users.contains u
    · have hu' : s.db.users.contains u = true := by simpa using hu
      rcases hsp.2.2.2 hu' with ⟨st, hres⟩ | ⟨hie, -⟩
      · rcases reserveItems_err items _ _ _ hres with
          ⟨pid2, he, -, -⟩ | ⟨pid2, he, hmem, hnone⟩ | ⟨n, a, q, he, -⟩
        · simp at he
        · obtain rfl : pid = pid2 := by simpa using he
          exact ⟨hmem, hnone⟩
        · simp at he
      · simp at hie
    · have hu' : s.db.users.contains u = false := by simpa using hu
      obtain ⟨he, -⟩ := hsp.2.2.1 hu'
      simp at he
  · have hpair : createOrder s u items pub =
        (.error (.insufficientStock n a q), (createOrder s u items pub).2) := by
      rw [← hr]
    have hsp := createOrder_err_spec s u items pub (.insufficientStock n a q)
      (createOrder s u items pub).2 hpair
    by_cases hu : s.db.users.contains u
    · have hu' : s.db.users.contains u = true := by simpa using hu
      rcases hsp.2.2.2 hu' with ⟨st, hres⟩ | ⟨hie, -⟩
      · rcases reserveItems_err items _ _ _ hres with
          ⟨pid2, he, -, -⟩ | ⟨pid2, he, -, -⟩ |
            ⟨n2, a2, q2, he, hlt, it, hmem, hq, p, hfind, hname⟩
        · simp at he
        · simp at he
        · obtain ⟨rfl, rfl, rfl⟩ : n = n2 ∧ a = a2 ∧ q = q2 := by
            simpa using he
          exact ⟨hlt, it, hmem, hq, p, hfind, hname⟩
      · simp at hie
    · have hu' : s.db.users.contains u = false := by simpa using hu
      obtain ⟨he, -⟩ := hsp.2.2.1 hu'
      simp at he
  · have hpair : createOrder s u items pub =
        (.error (.lockConflict pid), (createOrder s u items pub).2) := by
      rw [← hr]
    have hsp := createOrder_err_spec s u items pub (.lockConflict pid)
      (createOrder s u items pub).2 hpair
    by_cases hu : s.db.users.contains u
    · have hu' : s.db.users.contains u = true := by simpa using hu
      rcases hsp.2.2.2 hu' with ⟨st, hres⟩ | ⟨hie, -⟩
      · rcases reserveItems_err items _ _ _ hres with
          ⟨pid2, he, hmem, hlock⟩ | ⟨pid2, he, -, -⟩ | ⟨n, a, q, he, -⟩
        · obtain rfl : pid = pid2 := by simpa using he
          exact ⟨hmem, hlock⟩
        · simp at he
        · simp at he
      · simp at hie
    · have hu' : s.db.users.contains u = false := by simpa using hu
      obtain ⟨he, -⟩ := hsp.2.2.1 hu'
      simp at he
  · have hpair : createOrder s u items pub =
        (.error .internal, (createOrder s u items pub).2) := by
      rw [← hr]
    have hsp := createOrder_err_spec s u items pub .internal
      (createOrder s u items pub).2 hpair
    by_cases hu : s.db.users.contains u
    · have hu' : s.db.users.contains u = true := by simpa using hu
      rcases hsp.2.2.2 hu' with ⟨st, hres⟩ | ⟨-, st, hres, hb⟩
      · rcases reserveItems_err items _ _ _ hres with
          ⟨pid, he, -, -⟩ | ⟨pid, he, -, -⟩ | ⟨n, a, q, he, -⟩ <;> simp at he
      · have hfound := reserveItems_found items _ _ hres
        have hsome : ∀ it2 ∈ items,
            (findProduct st.products it2.productId).isSome = true := by
          intro it2 hit2
          rw [reserveItems_find items _ _ hres it2.productId]
          have hf := hfound it2 hit2
          cases hf2 : findProduct
              (⟨s.db.products, s.cache, s.locks, s.counter, 0⟩ :
                ResState).products it2.productId with
          | none => rw [hf2] at hf; cases hf
          | some p => rfl
        have hb2 := buildItems_isSome items st.products (st.counter + 1)
          (st.counter + 2) hsome
        rw [hb] at hb2
        cases hb2
    · have hu' : s.db.users.contains u = false := by simpa using hu
      obtain ⟨he, -⟩ := hsp.2.2.1 hu'
      simp at he

/-- Witness for C5 (amended): the absent user yields user-not-found, and
a request against the pre-locked demo state yields a lock-conflict on a
requested product whose key was held. -/
theorem createOrder_error_taxonomy_witness :
    (createOrder demoState 99 [] true).1 = .error .userNotFound ∧
    (1 ∈ [(⟨1, 3⟩ : CreateItem)].map CreateItem.productId ∧
      lockLookup lockedState.locks 1 ≠ none) := by
  refine ⟨(createOrder_error_taxonomy demoState 99 [] true).1.mpr (by decide),
    (createOrder_error_taxonomy lockedState 7 [⟨1, 3⟩] true).2.2.2.1 1 rfl⟩

/-- C8: a created order's `totalPrice` is the sum of its items'
`unitPrice * quantity`, each item's `totalPrice` is
`quantity * unitPrice`, and each item's `unitPrice` is the price of its
product as read during that item's reservation (prices are never changed
inside the transaction, so the snapshot equals the call-time price). -/
theorem order_pricing_snapshot (s : ServiceState) (u : Nat)
    (items : List CreateItem) (pub : Bool) (o : Order) (s2 : ServiceState)
    (h : createOrder s u items pub = (.ok o, s2)) :
    ∃ oitems : List OrderItem,
      s2.db.orderItems = s.db.orderItems ++ oitems ∧
      (∀ oi ∈ oitems, oi.orderId = o.id) ∧
      o.totalPrice = (oitems.map (fun oi => oi.unitPrice * oi.quantity)).sum ∧
      (∀ oi ∈ oitems, oi.totalPrice = oi.quantity * oi.unitPrice) ∧
      (∀ oi ∈ oitems, ∃ p, findProduct s.db.products oi.productId = some p ∧
        oi.unitPrice = p.price) := by
  obtain ⟨hu, st, oitems, c3, hres, hb, ho, rfl⟩ :=
    createOrder_ok_spec s u items pub o s2 h
  obtain ⟨hall, hsum⟩ := buildItems_spec items st.products (st.counter + 1)
    (st.counter + 2) oitems c3 hb
  have hpr : ∀ pid, (findProduct st.products pid).map Product.price =
      (findProduct s.db.products pid).map Product.price := fun pid =>
    reserveItems_price items _ st hres pid
  refine ⟨oitems, rfl, ?_, ?_, ?_, ?_⟩
  · intro oi hoi
    rw [ho]
    exact (hall oi hoi).1
  · rw [ho]
    show st.total = (oitems.map (fun oi => oi.unitPrice * oi.quantity)).sum
    have htot := reserveItems_total items _ _ hres
    dsimp only at htot
    have hls : lineSum st.products items = lineSum s.db.products items :=
      lineSum_congr _ _ hpr items
    rw [htot, hsum, hls]
    ring
  · intro oi hoi
    rw [(hall oi hoi).2.1]
    ring
  · intro oi hoi
    obtain ⟨p, hp, hup⟩ := (hall oi hoi).2.2
    have hmap := hpr oi.productId
    rw [hp, Option.map_some'] at hmap
    obtain ⟨p0, hp0, hpr0⟩ := Option.map_eq_some'.mp hmap.symm
    exact ⟨p0, hp0, by rw [hup, hpr0]⟩

/-- Witness for C8: the Scenario 2 order (one item, quantity 3, price 5)
satisfies the pricing invariants. -/
theorem order_pricing_snapshot_witness :
    ∃ oitems : List OrderItem,
      (createOrder demoState 7 [⟨1, 3⟩] true).2.db.orderItems =
        demoState.db.orderItems ++ oitems ∧
      (∀ oi ∈ oitems, oi.orderId = (⟨2, 7, .PENDING, 15, 1⟩ : Order).id) ∧
      (⟨2, 7, .PENDING, 15, 1⟩ : Order).totalPrice =
        (oitems.map (fun oi => oi.unitPrice * oi.quantity)).sum ∧
      (∀ oi ∈ oitems, oi.totalPrice = oi.quantity * oi.unitPrice) ∧
      (∀ oi ∈ oitems, ∃ p,
        findProduct demoState.db.products oi.productId = some p ∧
        oi.unitPrice = p.price) :=
  order_pricing_snapshot demoState 7 [⟨1, 3⟩] true ⟨2, 7, .PENDING, 15, 1⟩
    (createOrder demoState 7 [⟨1, 3⟩] true).2 rfl

end OrderSystem
